import Mathlib

/-!
Verification development for the stock_index_info repository.

The Python modules `exchange_rate.py`, `alpha_vantage.py`, `balance_sheet.py`,
`db.py` and `models.py` are shallowly embedded below.  Python floats are
modelled as exact rationals, Python `None` results as `Option`, the SQLite
tables as lists of rows, and the stateful orchestrators as explicit
state-passing functions.  Network effects (HTTP responses, yfinance lookups)
are passed in as explicit environment values.
-/

namespace StockIndexInfo

/-! ### Python string primitives

Tickers and ISO dates are ASCII strings.  `py_str_lt` models Python's `<` on
strings (lexicographic by code point, a strict prefix is smaller), and
`py_upper` models `str.upper()` on ASCII data.  Both are defined on the
underlying character lists so that they evaluate by kernel reduction. -/

/-- Lexicographic comparison of character lists by code point, with a strict
prefix ordered before any extension (Python `str.__lt__`). -/
def chars_lt : List Char → List Char → Bool
  | [], [] => false
  | [], _ :: _ => true
  | _ :: _, [] => false
  | a :: as, b :: bs => if a < b then true else if b < a then false else chars_lt as bs

/-- Python string comparison `a < b`. -/
def py_str_lt (a b : String) : Bool :=
  chars_lt a.data b.data

/-- ASCII upper-casing of one character. -/
def py_char_upper (c : Char) : Char :=
  if 'a' ≤ c ∧ c ≤ 'z' then Char.ofNat (c.toNat - 32) else c

/-- Python `s.upper()` for ASCII strings. -/
def py_upper (s : String) : String :=
  ⟨s.data.map py_char_upper⟩

/-! ### Data model (`models.py`) -/

/-- Annual net income record for a stock (`models.IncomeRecord`). -/
structure IncomeRecord where
  ticker : String
  fiscal_year : Int
  net_income : ℚ
deriving DecidableEq, Repr

/-- Cached income statement data for a stock (`models.CachedIncome`). -/
structure CachedIncome where
  ticker : String
  last_updated : String
  annual_income : List IncomeRecord
deriving DecidableEq, Repr

/-- Annual balance sheet record for a stock (`models.BalanceSheetRecord`). -/
structure BalanceSheetRecord where
  ticker : String
  fiscal_year : Int
  total_assets : ℚ
  total_liabilities : ℚ
  total_current_assets : ℚ
  goodwill : ℚ
  intangible_assets : ℚ
deriving DecidableEq, Repr

/-- Cached balance sheet data for a stock (`models.CachedBalanceSheet`). -/
structure CachedBalanceSheet where
  ticker : String
  last_updated : String
  annual_records : List BalanceSheetRecord
deriving DecidableEq, Repr

/-- NTA and NCAV calculation result (`models.AssetValuationResult`). -/
structure AssetValuationResult where
  nta : ℚ
  ncav : ℚ
  p_nta : Option ℚ
  p_ncav : Option ℚ
deriving DecidableEq, Repr

/-- The 7-year average P/E calculation result (`models.PEResult`). -/
structure PEResult where
  pe : ℚ
  avg_income : ℚ
deriving DecidableEq, Repr

/-! ### Currency conversion (`exchange_rate.py`)

The exchange-rate table returned by the open.er-api endpoint is modelled as an
association list from currency code to rate.  `rates_get` models Python's
`dict.get` on it. -/

/-- Lookup in the rate table, modelling `rates.get(from_currency)`. -/
def rates_get (rates : List (String × ℚ)) (c : String) : Option ℚ :=
  (rates.find? (fun p => p.1 = c)).map (fun p => p.2)

/-- Embedding of `convert_to_usd` (exchange_rate.py, lines 97-131).  The result
of the `get_exchange_rates()` call made inside the function is passed in as
`ratesResult` (`none` models a failed fetch). -/
def convert_to_usd (ratesResult : Option (List (String × ℚ)))
    (amount : ℚ) (from_currency : String) : Option ℚ :=
  if from_currency = "USD" then
    some amount
  else
    match ratesResult with
    | none => none
    | some rates =>
      match rates_get rates from_currency with
      | none => none
      | some rate =>
        if rate ≤ 0 then none
        else some (amount / rate)

/-! ### Valuation calculator (`alpha_vantage.py` / `balance_sheet.py`) -/

/-- The consecutive-years loop of `calculate_7year_avg_pe`:
`for i in range(len(years) - 1): if years[i] - years[i+1] != 1: return None`. -/
def consecutive_years : List Int → Bool
  | y1 :: y2 :: rest => (y1 - y2 == 1) && consecutive_years (y2 :: rest)
  | _ => true

/-- The value `sum(r.net_income for r in income_records[:7]) / 7`, the 7-year average
net income. -/
def avg_7 (income_records : List IncomeRecord) : ℚ :=
  ((income_records.take 7).map (fun r => r.net_income)).sum / 7

/-- Embedding of `calculate_7year_avg_pe` (alpha_vantage.py, lines 276-310):
`recent_7 = income_records[:7]` is the descending-sorted prefix, the loop
rejects non-consecutive years, and a non-positive average yields `None`. -/
def calculate_7year_avg_pe (income_records : List IncomeRecord) (market_cap : ℚ) :
    Option PEResult :=
  if income_records.length < 7 then none
  else if consecutive_years ((income_records.take 7).map (fun r => r.fiscal_year)) then
    if avg_7 income_records ≤ 0 then none
    else some ⟨market_cap / avg_7 income_records, avg_7 income_records⟩
  else none

/-- Embedding of `calculate_asset_valuation` (balance_sheet.py, lines 148-179). -/
def calculate_asset_valuation (record : BalanceSheetRecord) (market_cap : ℚ) :
    AssetValuationResult :=
  let nta := record.total_assets - record.total_liabilities - record.goodwill
    - record.intangible_assets
  let ncav := record.total_current_assets - record.total_liabilities
  let p_nta := if nta > 0 then some (market_cap / nta) else none
  let p_ncav := if ncav > 0 then some (market_cap / ncav) else none
  ⟨nta, ncav, p_nta, p_ncav⟩

/-! ### Currency formatting (`alpha_vantage.format_currency`)

Python's `f"{x:.1f}"` rounds to one decimal place using round-half-to-even;
`round_half_even` and `fmt_one_dec` model that on exact rationals. -/

/-- Round a rational to the nearest integer, ties to even. -/
def round_half_even (y : ℚ) : ℤ :=
  let m := Rat.floor y
  let frac := y - m
  if frac < 1/2 then m
  else if 1/2 < frac then m + 1
  else if m % 2 = 0 then m else m + 1

/-- One-decimal rendering of a nonnegative rational, modelling `f"{x:.1f}"`. -/
def fmt_one_dec (x : ℚ) : String :=
  let n := round_half_even (x * 10)
  toString (n / 10) ++ "." ++ toString (n % 10)

/-- Embedding of `format_currency` (alpha_vantage.py, lines 20-40).  Python's
`int(abs_amount)` truncates toward zero, which for a nonnegative argument is
the floor. -/
def format_currency (amount : ℚ) : String :=
  let negative := amount < 0
  let abs_amount := |amount|
  let sign := if negative then "-" else ""
  if abs_amount ≥ 1000000000 then
    sign ++ "$" ++ fmt_one_dec (abs_amount / 1000000000) ++ "B"
  else if abs_amount ≥ 1000000 then
    sign ++ "$" ++ fmt_one_dec (abs_amount / 1000000) ++ "M"
  else if abs_amount ≥ 10000 then
    sign ++ "$" ++ fmt_one_dec (abs_amount / 1000) ++ "K"
  else
    sign ++ "$" ++ toString (Rat.floor abs_amount)

/-! ### Persistent cache store (`db.py`)

The two cached-series tables are modelled as lists of rows in insertion
order; `ORDER BY fiscal_year DESC` is modelled by `List.insertionSort` with
the year-descending relation (SQLite rows of one ticker have pairwise
distinct fiscal years thanks to the `UNIQUE(ticker, fiscal_year)`
constraint, so the descending order is unique). -/

/-- One row of the `income_statements` table. -/
structure IncomeRow where
  ticker : String
  fiscal_year : Int
  net_income : ℚ
  last_updated : String
deriving DecidableEq, Repr

/-- The `income_statements` table. -/
abbrev IncomeDb := List IncomeRow

/-- One row of the `balance_sheets` table. -/
structure BalanceRow where
  ticker : String
  fiscal_year : Int
  total_assets : ℚ
  total_liabilities : ℚ
  total_current_assets : ℚ
  goodwill : ℚ
  intangible_assets : ℚ
  last_updated : String
deriving DecidableEq, Repr

/-- The `balance_sheets` table. -/
abbrev BalanceDb := List BalanceRow

/-- Year-descending order on income rows. -/
def incomeRowGE (a b : IncomeRow) : Prop :=
  b.fiscal_year ≤ a.fiscal_year

instance : DecidableRel incomeRowGE :=
  fun a b => Int.decLe b.fiscal_year a.fiscal_year

instance : IsTotal IncomeRow incomeRowGE :=
  ⟨fun a b => Int.le_total b.fiscal_year a.fiscal_year⟩

instance : IsTrans IncomeRow incomeRowGE :=
  ⟨fun _ _ _ hab hbc => le_trans hbc hab⟩

/-- Year-descending order on balance-sheet rows. -/
def balanceRowGE (a b : BalanceRow) : Prop :=
  b.fiscal_year ≤ a.fiscal_year

instance : DecidableRel balanceRowGE :=
  fun a b => Int.decLe b.fiscal_year a.fiscal_year

instance : IsTotal BalanceRow balanceRowGE :=
  ⟨fun a b => Int.le_total b.fiscal_year a.fiscal_year⟩

instance : IsTrans BalanceRow balanceRowGE :=
  ⟨fun _ _ _ hab hbc => le_trans hbc hab⟩

/-- Embedding of `save_income` (db.py, lines 151-172): delete all rows of the
ticker, then insert the given records stamped with `last_updated`. -/
def save_income (db : IncomeDb) (ticker : String) (records : List IncomeRecord)
    (last_updated : String) : IncomeDb :=
  let ticker_upper := py_upper ticker
  db.filter (fun row => row.ticker ≠ ticker_upper) ++
    records.map (fun r => ⟨ticker_upper, r.fiscal_year, r.net_income, last_updated⟩)

/-- Embedding of `get_cached_income` (db.py, lines 175-201): select the rows of
the ticker ordered by fiscal year descending; `None` when no rows exist,
otherwise the records with the shared `last_updated` of the first row. -/
def get_cached_income (db : IncomeDb) (ticker : String) : Option CachedIncome :=
  let ticker_upper := py_upper ticker
  let rows := List.insertionSort incomeRowGE (db.filter (fun row => row.ticker = ticker_upper))
  match rows with
  | [] => none
  | r0 :: _ =>
    some ⟨ticker_upper, r0.last_updated,
      rows.map (fun row => ⟨ticker_upper, row.fiscal_year, row.net_income⟩)⟩

/-- Embedding of `save_balance_sheet` (db.py, lines 204-237). -/
def save_balance_sheet (db : BalanceDb) (ticker : String)
    (records : List BalanceSheetRecord) (last_updated : String) : BalanceDb :=
  let ticker_upper := py_upper ticker
  db.filter (fun row => row.ticker ≠ ticker_upper) ++
    records.map (fun r =>
      ⟨ticker_upper, r.fiscal_year, r.total_assets, r.total_liabilities,
        r.total_current_assets, r.goodwill, r.intangible_assets, last_updated⟩)

/-- Embedding of `get_cached_balance_sheet` (db.py, lines 240-276). -/
def get_cached_balance_sheet (db : BalanceDb) (ticker : String) :
    Option CachedBalanceSheet :=
  let ticker_upper := py_upper ticker
  let rows := List.insertionSort balanceRowGE (db.filter (fun row => row.ticker = ticker_upper))
  match rows with
  | [] => none
  | r0 :: _ =>
    some ⟨ticker_upper, r0.last_updated,
      rows.map (fun row =>
        ⟨ticker_upper, row.fiscal_year, row.total_assets, row.total_liabilities,
          row.total_current_assets, row.goodwill, row.intangible_assets⟩)⟩

/-! ### Exchange-rate cache state machine (`exchange_rate.py`, lines 31-94)

The process-wide `_exchange_rates_cache` is passed and returned explicitly.
The HTTP call of one invocation is modelled by an `Option ApiResp` argument
(`none` models a transport failure / raised exception). -/

/-- Cache container for exchange rates with timestamp
(`_ExchangeRateCache`). -/
structure ExchangeRateCache where
  rates : List (String × ℚ)
  timestamp : ℚ
deriving DecidableEq

/-- Parsed JSON body of the open.er-api response: the `result` field and the
`rates` table (a missing or empty `rates` object is modelled by `[]`). -/
structure ApiResp where
  result : String
  rates : List (String × ℚ)
deriving DecidableEq

/-- Constant `_CACHE_EXPIRATION_SECONDS = 24 * 60 * 60`. -/
def cache_expiration_seconds : ℚ := 24 * 60 * 60

/-- Outcome of one `get_exchange_rates()` call: the returned value, the new
cache state, and whether the HTTP request was issued. -/
structure RatesOutcome where
  result : Option (List (String × ℚ))
  cache : Option ExchangeRateCache
  fetched : Bool

/-- The fetch-and-update part of `get_exchange_rates` (the body after the
cache check, lines 49-94). -/
def fetch_rates (cache : Option ExchangeRateCache) (now : ℚ) (resp : Option ApiResp) :
    RatesOutcome :=
  match resp with
  | none => ⟨none, cache, true⟩
  | some data =>
    if data.result ≠ "success" then ⟨none, cache, true⟩
    else if data.rates = [] then ⟨none, cache, true⟩
    else ⟨some data.rates, some ⟨data.rates, now⟩, true⟩

/-- Embedding of `get_exchange_rates` (exchange_rate.py, lines 31-94): reuse a
cache younger than 24 hours, otherwise fetch and (on success) replace it. -/
def get_exchange_rates (cache : Option ExchangeRateCache) (now : ℚ)
    (resp : Option ApiResp) : RatesOutcome :=
  match cache with
  | some c =>
    if now - c.timestamp < cache_expiration_seconds then ⟨some c.rates, cache, false⟩
    else fetch_rates cache now resp
  | none => fetch_rates cache now resp

/-- A sequence of `get_exchange_rates` calls, threading the cache; returns the
per-call results and the final cache. -/
def run_rate_calls (cache : Option ExchangeRateCache) :
    List (ℚ × Option ApiResp) → List (Option (List (String × ℚ))) × Option ExchangeRateCache
  | [] => ([], cache)
  | (now, resp) :: rest =>
    let o := get_exchange_rates cache now resp
    let (results, final) := run_rate_calls o.cache rest
    (o.result :: results, final)

/-- A response on which `get_exchange_rates` fails: transport error,
non-success result marker, or missing/empty rates table. -/
def failing_resp (resp : Option ApiResp) : Prop :=
  resp = none ∨ ∃ data, resp = some data ∧ (data.result ≠ "success" ∨ data.rates = [])

/-! ### Provider adapters (`fetch_annual_net_income`, `fetch_balance_sheet`)

The HTTP/JSON layer is modelled by explicit inputs: a flag for the configured
API key, an optional parsed response (`none` = transport failure, error
payload handled by explicit flags), and the result of the
`get_exchange_rates()` calls made by `convert_to_usd` during the loop.
Python's `int(s[:4])` and `float(s)` parsers are abstracted as functions
`parse_year` and `parse_num` returning `none` where Python raises
`ValueError`. -/

/-- One element of `annualReports` for `INCOME_STATEMENT`.  A missing or null
`fiscalDateEnding` / `netIncome` is encoded as `""` (both are skipped
identically by the code); a missing `reportedCurrency` is `none`. -/
structure IncomeEntry where
  fiscalDateEnding : String
  netIncome : String
  reportedCurrency : Option String
deriving DecidableEq

/-- Parsed JSON body of an Alpha Vantage response: the error markers and the
`annualReports` array. -/
structure AVData (α : Type) where
  hasErrorMessage : Bool
  hasNote : Bool
  annualReports : List α
deriving DecidableEq

/-- The per-entry loop of `fetch_annual_net_income` (alpha_vantage.py, lines
115-145).  `none` models the early `return None` on a failed currency
conversion; skipped entries are dropped. -/
def income_entry_loop (ratesResult : Option (List (String × ℚ)))
    (parse_year : String → Option Int) (parse_num : String → Option ℚ)
    (ticker_upper cur : String) : List IncomeEntry → Option (List IncomeRecord)
  | [] => some []
  | e :: rest =>
    if e.fiscalDateEnding = "" ∨ e.netIncome = "" ∨ e.netIncome = "None" then
      income_entry_loop ratesResult parse_year parse_num ticker_upper cur rest
    else
      match parse_year e.fiscalDateEnding, parse_num e.netIncome with
      | some fy, some ni =>
        if cur ≠ "USD" then
          match convert_to_usd ratesResult ni cur with
          | none => none
          | some ni_usd =>
            (income_entry_loop ratesResult parse_year parse_num ticker_upper cur rest).map
              (fun rs => ⟨ticker_upper, fy, ni_usd⟩ :: rs)
        else
          (income_entry_loop ratesResult parse_year parse_num ticker_upper cur rest).map
            (fun rs => ⟨ticker_upper, fy, ni⟩ :: rs)
      | _, _ => income_entry_loop ratesResult parse_year parse_num ticker_upper cur rest

/-- Year-descending order on income records (`records.sort(key=..., reverse=True)`). -/
def incomeRecGE (a b : IncomeRecord) : Prop :=
  b.fiscal_year ≤ a.fiscal_year

instance : DecidableRel incomeRecGE :=
  fun a b => Int.decLe b.fiscal_year a.fiscal_year

/-- Embedding of `fetch_annual_net_income` (alpha_vantage.py, lines 43-175). -/
def fetch_annual_net_income (api_key_configured : Bool)
    (resp : Option (AVData IncomeEntry)) (ratesResult : Option (List (String × ℚ)))
    (parse_year : String → Option Int) (parse_num : String → Option ℚ)
    (ticker : String) : Option (List IncomeRecord) :=
  if ¬ api_key_configured then none
  else
    match resp with
    | none => none
    | some data =>
      if data.hasErrorMessage then none
      else if data.hasNote then none
      else
        match data.annualReports with
        | [] => none
        | e0 :: _ =>
          let ticker_upper := py_upper ticker
          let cur := e0.reportedCurrency.getD "USD"
          match income_entry_loop ratesResult parse_year parse_num ticker_upper cur
              data.annualReports with
          | none => none
          | some records =>
            if records = [] then none
            else some (List.insertionSort incomeRecGE records)

/-- One element of `annualReports` for `BALANCE_SHEET`.  Each monetary field
holds the value of `entry.get(key, "0")`: a missing key is encoded as
`some "0"` and a JSON null as `none`. -/
structure BalanceEntry where
  fiscalDateEnding : String
  totalAssets : Option String
  totalLiabilities : Option String
  totalCurrentAssets : Option String
  goodwill : Option String
  intangibleAssets : Option String
  reportedCurrency : Option String
deriving DecidableEq

/-- The nested `get_float` helper of `fetch_balance_sheet` (balance_sheet.py,
lines 68-75): null / "None" / "" map to 0.0, anything else is parsed, with a
parse failure giving `none`. -/
def get_float (parse_num : String → Option ℚ) : Option String → Option ℚ
  | none => some 0
  | some v => if v = "None" ∨ v = "" then some 0 else parse_num v

/-- The per-entry loop of `fetch_balance_sheet` (balance_sheet.py, lines
64-135). -/
def balance_entry_loop (ratesResult : Option (List (String × ℚ)))
    (parse_year : String → Option Int) (parse_num : String → Option ℚ)
    (ticker_upper cur : String) : List BalanceEntry → Option (List BalanceSheetRecord)
  | [] => some []
  | e :: rest =>
    let ta := get_float parse_num e.totalAssets
    let tl := get_float parse_num e.totalLiabilities
    let tca := get_float parse_num e.totalCurrentAssets
    let gw := get_float parse_num e.goodwill
    let ia := get_float parse_num e.intangibleAssets
    if ta = none ∨ tl = none ∨ tca = none then
      balance_entry_loop ratesResult parse_year parse_num ticker_upper cur rest
    else
      let ta := ta.getD 0
      let tl := tl.getD 0
      let tca := tca.getD 0
      let gw := gw.getD 0
      let ia := ia.getD 0
      match parse_year e.fiscalDateEnding with
      | none => balance_entry_loop ratesResult parse_year parse_num ticker_upper cur rest
      | some fy =>
        if cur ≠ "USD" then
          match convert_to_usd ratesResult ta cur, convert_to_usd ratesResult tl cur,
              convert_to_usd ratesResult tca cur, convert_to_usd ratesResult gw cur,
              convert_to_usd ratesResult ia cur with
          | some ta', some tl', some tca', some gw', some ia' =>
            (balance_entry_loop ratesResult parse_year parse_num ticker_upper cur rest).map
              (fun rs => ⟨ticker_upper, fy, ta', tl', tca', gw', ia'⟩ :: rs)
          | _, _, _, _, _ => none
        else
          (balance_entry_loop ratesResult parse_year parse_num ticker_upper cur rest).map
            (fun rs => ⟨ticker_upper, fy, ta, tl, tca, gw, ia⟩ :: rs)

/-- Year-descending order on balance-sheet records. -/
def balanceRecGE (a b : BalanceSheetRecord) : Prop :=
  b.fiscal_year ≤ a.fiscal_year

instance : DecidableRel balanceRecGE :=
  fun a b => Int.decLe b.fiscal_year a.fiscal_year

/-- Embedding of `fetch_balance_sheet` (balance_sheet.py, lines 21-145). -/
def fetch_balance_sheet (api_key_configured : Bool)
    (resp : Option (AVData BalanceEntry)) (ratesResult : Option (List (String × ℚ)))
    (parse_year : String → Option Int) (parse_num : String → Option ℚ)
    (ticker : String) : Option (List BalanceSheetRecord) :=
  if ¬ api_key_configured then none
  else
    match resp with
    | none => none
    | some data =>
      if data.hasErrorMessage ∨ data.hasNote then none
      else
        match data.annualReports with
        | [] => none
        | e0 :: _ =>
          let ticker_upper := py_upper ticker
          let cur := e0.reportedCurrency.getD "USD"
          match balance_entry_loop ratesResult parse_year parse_num ticker_upper cur
              data.annualReports with
          | none => none
          | some records =>
            if records = [] then none
            else some (List.insertionSort balanceRecGE records)

/-! ### Staleness-aware fetch orchestrators
(`get_7year_pe`, `get_asset_valuation`)

The provider calls made inside the orchestrators are modelled by environment
values: the result a call to the series fetcher would return, the result a
call to `get_market_cap` would return, and `date.today().isoformat()`.  The
outcome records the returned value, the database state after the call, and
which provider calls were issued. -/

/-- Environment of one `get_7year_pe` call. -/
structure PEEnv where
  fetch_income : Option (List IncomeRecord)
  fetch_mcap : Option ℚ
  today : String

/-- Environment of one `get_asset_valuation` call. -/
structure AVEnv where
  fetch_balance : Option (List BalanceSheetRecord)
  today : String

/-- Outcome of one `get_7year_pe` call. -/
structure PEOutcome where
  result : Option PEResult
  db : IncomeDb
  fetchCalled : Bool
  mcapCalled : Bool
  cacheReads : Nat
deriving DecidableEq

/-- Outcome of one `get_asset_valuation` call. -/
structure AVOutcome where
  result : Option AssetValuationResult
  db : BalanceDb
  fetchCalled : Bool
  cacheReads : Nat
deriving DecidableEq

/-- The refresh decision shared by both orchestrators (alpha_vantage.py lines
340-344 / balance_sheet.py lines 212-216): refresh iff there is no cache, or a
truthy `latest_filing_date` is lexicographically greater than the cache's
`last_updated`. -/
def refresh_needed (cached_last : Option String) (latest_filing_date : Option String) : Bool :=
  match cached_last with
  | none => true
  | some lu =>
    match latest_filing_date with
    | none => false
    | some d => (d ≠ "" : Bool) && py_str_lt lu d

/-- Python `if new_records:` — true for a non-`None`, non-empty list. -/
def option_truthy {α : Type} : Option (List α) → Bool
  | none => false
  | some l => !l.isEmpty

/-- Lines 354-364 of `get_7year_pe`: the length guard, the market-cap
fallback, and the final calculation.  Returns the result and whether
`get_market_cap` was invoked. -/
def pe_tail (cached : Option CachedIncome) (market_cap : Option ℚ)
    (fetched_mcap : Option ℚ) : Option PEResult × Bool :=
  match cached with
  | none => (none, false)
  | some c =>
    if c.annual_income.length < 7 then (none, false)
    else
      match market_cap with
      | some m => (calculate_7year_avg_pe c.annual_income m, false)
      | none =>
        match fetched_mcap with
        | some m => (calculate_7year_avg_pe c.annual_income m, true)
        | none => (none, true)

/-- Embedding of `get_7year_pe` (alpha_vantage.py, lines 313-364). -/
def get_7year_pe (env : PEEnv) (db : IncomeDb) (ticker : String)
    (market_cap : Option ℚ) (latest_filing_date : Option String) : PEOutcome :=
  let ticker_upper := py_upper ticker
  let cached := get_cached_income db ticker_upper
  let need_refresh := refresh_needed (cached.map (fun c => c.last_updated)) latest_filing_date
  let do_save := need_refresh && option_truthy env.fetch_income
  let db1 := if do_save then save_income db ticker_upper (env.fetch_income.getD []) env.today
    else db
  let cached1 := if do_save then get_cached_income db1 ticker_upper else cached
  let rm := pe_tail cached1 market_cap env.fetch_mcap
  ⟨rm.1, db1, need_refresh, rm.2, if do_save then 2 else 1⟩

/-- Lines 226-233 of `get_asset_valuation`: the empty guard and the
calculation on the most recent record. -/
def av_tail (cached : Option CachedBalanceSheet) (m : ℚ) : Option AssetValuationResult :=
  match cached with
  | none => none
  | some c =>
    match c.annual_records with
    | [] => none
    | most_recent :: _ => some (calculate_asset_valuation most_recent m)

/-- Embedding of `get_asset_valuation` (balance_sheet.py, lines 182-233).  A
missing `market_cap` returns `None` before the cache is read. -/
def get_asset_valuation (env : AVEnv) (db : BalanceDb) (ticker : String)
    (market_cap : Option ℚ) (latest_filing_date : Option String) : AVOutcome :=
  match market_cap with
  | none => ⟨none, db, false, 0⟩
  | some m =>
    let ticker_upper := py_upper ticker
    let cached := get_cached_balance_sheet db ticker_upper
    let need_refresh := refresh_needed (cached.map (fun c => c.last_updated)) latest_filing_date
    let do_save := need_refresh && option_truthy env.fetch_balance
    let db1 := if do_save then
        save_balance_sheet db ticker_upper (env.fetch_balance.getD []) env.today
      else db
    let cached1 := if do_save then get_cached_balance_sheet db1 ticker_upper else cached
    ⟨av_tail cached1 m, db1, need_refresh, if do_save then 2 else 1⟩

/-! ### Concrete inputs used by witnesses -/

/-- The seven-year income series of the spec's worked scenario (values in
millions): fiscal years 2024 down to 2018. -/
def scenario_records : List IncomeRecord :=
  [⟨"A", 2024, 100⟩, ⟨"A", 2023, 90⟩, ⟨"A", 2022, 80⟩, ⟨"A", 2021, 100⟩,
   ⟨"A", 2020, 110⟩, ⟨"A", 2019, 120⟩, ⟨"A", 2018, 100⟩]

/-- A seven-row income table for ticker `A`, all stamped `2025-01-01`. -/
def scenario_db : IncomeDb :=
  [⟨"A", 2024, 100, "2025-01-01"⟩, ⟨"A", 2023, 90, "2025-01-01"⟩,
   ⟨"A", 2022, 80, "2025-01-01"⟩, ⟨"A", 2021, 100, "2025-01-01"⟩,
   ⟨"A", 2020, 110, "2025-01-01"⟩, ⟨"A", 2019, 120, "2025-01-01"⟩,
   ⟨"A", 2018, 100, "2025-01-01"⟩]

/-- A one-row balance-sheet table for ticker `A`. -/
def scenario_balance_db : BalanceDb :=
  [⟨"A", 2024, 100, 50, 40, 5, 3, "2025-01-01"⟩]

/-- Function `Rat.floor` agrees with the floor of the `FloorRing` instance. -/
theorem rat_floor_eq_floor (q : ℚ) : Rat.floor q = ⌊q⌋ := rfl

/-- Rounding an integer changes nothing. -/
theorem round_half_even_intCast (n : ℤ) : round_half_even (n : ℚ) = n := by
  unfold round_half_even
  rw [rat_floor_eq_floor, Int.floor_intCast]
  norm_num

/-- Evaluation rule for `fmt_one_dec` when ten times the argument is an
integer. -/
theorem fmt_one_dec_int (x : ℚ) (n : ℤ) (h : x * 10 = (n : ℚ)) :
    fmt_one_dec x = toString (n / 10) ++ "." ++ toString (n % 10) := by
  unfold fmt_one_dec
  rw [h, round_half_even_intCast]

/-- The consecutive-years loop accepts exactly the chains where each year is
one less than its predecessor. -/
theorem consecutive_years_iff (ys : List Int) :
    consecutive_years ys = true ↔ List.Chain' (fun x y => y = x - 1) ys := by
  induction ys with
  | nil => simp [consecutive_years]
  | cons y1 tl ih =>
    cases tl with
    | nil => simp [consecutive_years]
    | cons y2 rest =>
      rw [consecutive_years, List.chain'_cons, ← ih]
      simp only [Bool.and_eq_true, beq_iff_eq]
      constructor
      · rintro ⟨h, hc⟩
        exact ⟨by omega, hc⟩
      · rintro ⟨h, hc⟩
        exact ⟨by omega, hc⟩

/-- C1: for a list of income records sorted by fiscal year descending and a
market value, `calculate_7year_avg_pe` returns a non-absent result iff there
are at least 7 records, the 7 most recent fiscal years are strictly
consecutive (each exactly one less than the previous) and the average of the
7 most recent net incomes is strictly positive; in that case it returns the
ratio `market value / average` together with the average, and otherwise it
returns absent. -/
theorem calculate_7year_avg_pe_spec (recs : List IncomeRecord) (m : ℚ)
    (hsorted : List.Sorted (fun a b : IncomeRecord => b.fiscal_year ≤ a.fiscal_year) recs) :
    ((calculate_7year_avg_pe recs m).isSome ↔
      (7 ≤ recs.length ∧
        List.Chain' (fun a b : IncomeRecord => b.fiscal_year = a.fiscal_year - 1)
          (recs.take 7) ∧
        0 < avg_7 recs)) ∧
    ((calculate_7year_avg_pe recs m).isSome →
      calculate_7year_avg_pe recs m = some ⟨m / avg_7 recs, avg_7 recs⟩) := by
  have hchain : consecutive_years ((recs.take 7).map (fun r => r.fiscal_year)) = true ↔
      List.Chain' (fun a b : IncomeRecord => b.fiscal_year = a.fiscal_year - 1)
        (recs.take 7) := by
    rw [consecutive_years_iff, List.chain'_map]
  constructor
  · simp only [calculate_7year_avg_pe]
    split_ifs with h1 h2 h3
    · simp only [Option.isSome_none, Bool.false_eq_true, false_iff]
      rintro ⟨h7, -, -⟩
      omega
    · simp only [Option.isSome_none, Bool.false_eq_true, false_iff]
      rintro ⟨-, -, hpos⟩
      exact absurd hpos (not_lt.mpr h3)
    · simp only [Option.isSome_some, true_iff]
      exact ⟨by omega, hchain.mp h2, lt_of_not_le h3⟩
    · simp only [Option.isSome_none, Bool.false_eq_true, false_iff]
      rintro ⟨-, hc, -⟩
      exact h2 (hchain.mpr hc)
  · intro hs
    simp only [calculate_7year_avg_pe] at hs ⊢
    split_ifs at hs ⊢ <;> simp_all

/-- Witness for C1 at the spec's worked scenario: seven consecutive years
2024-2018 with average net income 100 and market value 2000. -/
theorem calculate_7year_avg_pe_spec_witness :
    List.Sorted (fun a b : IncomeRecord => b.fiscal_year ≤ a.fiscal_year) scenario_records ∧
    (((calculate_7year_avg_pe scenario_records 2000).isSome ↔
      (7 ≤ scenario_records.length ∧
        List.Chain' (fun a b : IncomeRecord => b.fiscal_year = a.fiscal_year - 1)
          (scenario_records.take 7) ∧
        0 < avg_7 scenario_records)) ∧
    ((calculate_7year_avg_pe scenario_records 2000).isSome →
      calculate_7year_avg_pe scenario_records 2000 =
        some ⟨2000 / avg_7 scenario_records, avg_7 scenario_records⟩)) :=
  ⟨by decide, calculate_7year_avg_pe_spec scenario_records 2000 (by decide)⟩

/-- C2: `calculate_asset_valuation` always returns
`NTA = assets − liabilities − goodwill − intangibles` and
`NCAV = current assets − liabilities` (even when negative), with each price
ratio present iff its denominator is strictly positive. -/
theorem calculate_asset_valuation_spec (r : BalanceSheetRecord) (m : ℚ) :
    (calculate_asset_valuation r m).nta
        = r.total_assets - r.total_liabilities - r.goodwill - r.intangible_assets ∧
    (calculate_asset_valuation r m).ncav = r.total_current_assets - r.total_liabilities ∧
    (calculate_asset_valuation r m).p_nta =
      (if 0 < r.total_assets - r.total_liabilities - r.goodwill - r.intangible_assets then
        some (m / (r.total_assets - r.total_liabilities - r.goodwill - r.intangible_assets))
      else none) ∧
    (calculate_asset_valuation r m).p_ncav =
      (if 0 < r.total_current_assets - r.total_liabilities then
        some (m / (r.total_current_assets - r.total_liabilities))
      else none) :=
  ⟨rfl, rfl, rfl, rfl⟩

/-- C6: conversion is the identity on USD; with a fetched table containing a
strictly positive rate `r` for a non-USD currency it divides by `r`; and a
missing table, missing currency, or non-positive rate yields absent. -/
theorem convert_to_usd_spec :
    (∀ (ratesResult : Option (List (String × ℚ))) (x : ℚ),
      convert_to_usd ratesResult x "USD" = some x) ∧
    (∀ (rates : List (String × ℚ)) (x r : ℚ) (c : String), c ≠ "USD" →
      rates_get rates c = some r → 0 < r →
      convert_to_usd (some rates) x c = some (x / r)) ∧
    (∀ (ratesResult : Option (List (String × ℚ))) (x : ℚ) (c : String), c ≠ "USD" →
      (ratesResult = none ∨
        (∃ rates, ratesResult = some rates ∧ rates_get rates c = none) ∨
        (∃ rates r, ratesResult = some rates ∧ rates_get rates c = some r ∧ r ≤ 0)) →
      convert_to_usd ratesResult x c = none) := by
  refine ⟨fun ratesResult x => by simp [convert_to_usd], ?_, ?_⟩
  · intro rates x r c hc hr hpos
    simp [convert_to_usd, hc, hr, not_le.mpr hpos]
  · intro ratesResult x c hc hfail
    rcases hfail with rfl | ⟨rates, rfl, hget⟩ | ⟨rates, r, rfl, hget, hr⟩
    · simp [convert_to_usd, hc]
    · simp [convert_to_usd, hc, hget]
    · simp [convert_to_usd, hc, hget, hr]

/-- Witness for C6: converting 10 EUR at rate 2 gives 5 USD. -/
theorem convert_to_usd_spec_witness :
    ("EUR" ≠ "USD") ∧ rates_get [("EUR", 2)] "EUR" = some 2 ∧ (0 : ℚ) < 2 ∧
    convert_to_usd (some [("EUR", 2)]) 10 "EUR" = some (10 / 2) :=
  ⟨by decide, rfl, by norm_num,
    convert_to_usd_spec.2.1 [("EUR", 2)] 10 2 "EUR" (by decide) rfl (by norm_num)⟩

/-- C9: `format_currency` renders magnitudes of at least 1e9 / 1e6 / 1e4 with
one decimal and suffix `B` / `M` / `K`, smaller magnitudes as the truncated
integer dollar amount, with the sign as a leading `-` outside the `$`; in
particular the three scenario values render as stated. -/
theorem format_currency_spec :
    format_currency 12500000000 = "$12.5B" ∧
    format_currency (-500000000) = "-$500.0M" ∧
    format_currency 5000 = "$5000" ∧
    (∀ a : ℚ, 1000000000 ≤ |a| →
      format_currency a =
        (if a < 0 then "-" else "") ++ "$" ++ fmt_one_dec (|a| / 1000000000) ++ "B") ∧
    (∀ a : ℚ, 1000000 ≤ |a| → |a| < 1000000000 →
      format_currency a =
        (if a < 0 then "-" else "") ++ "$" ++ fmt_one_dec (|a| / 1000000) ++ "M") ∧
    (∀ a : ℚ, 10000 ≤ |a| → |a| < 1000000 →
      format_currency a =
        (if a < 0 then "-" else "") ++ "$" ++ fmt_one_dec (|a| / 1000) ++ "K") ∧
    (∀ a : ℚ, |a| < 10000 →
      format_currency a =
        (if a < 0 then "-" else "") ++ "$" ++ toString (Rat.floor |a|)) := by
  refine ⟨?_, ?_, ?_, ?_, ?_, ?_, ?_⟩
  · have habs : |(12500000000 : ℚ)| = 12500000000 := abs_of_nonneg (by norm_num)
    have h1 : ¬ ((12500000000 : ℚ) < 0) := by norm_num
    have h2 : (12500000000 : ℚ) ≥ 1000000000 := by norm_num
    simp only [format_currency, habs, h1, h2, if_true, if_false, ite_true, ite_false]
    rw [fmt_one_dec_int _ 125 (by norm_num)]
    rfl
  · have habs : |(-500000000 : ℚ)| = 500000000 := by
      rw [abs_of_nonpos (by norm_num)]
      norm_num
    have h1 : ((-500000000 : ℚ) < 0) := by norm_num
    have h2 : ¬ ((500000000 : ℚ) ≥ 1000000000) := by norm_num
    have h3 : ((500000000 : ℚ) ≥ 1000000) := by norm_num
    simp only [format_currency, habs, h1, h2, h3, if_true, if_false, ite_true, ite_false]
    rw [fmt_one_dec_int _ 5000 (by norm_num)]
    rfl
  · have habs : |(5000 : ℚ)| = 5000 := abs_of_nonneg (by norm_num)
    have h1 : ¬ ((5000 : ℚ) < 0) := by norm_num
    have h2 : ¬ ((5000 : ℚ) ≥ 1000000000) := by norm_num
    have h3 : ¬ ((5000 : ℚ) ≥ 1000000) := by norm_num
    have h4 : ¬ ((5000 : ℚ) ≥ 10000) := by norm_num
    simp only [format_currency, habs, h1, h2, h3, h4, if_true, if_false, ite_true, ite_false]
    rfl
  · intro a h
    simp only [format_currency]
    rw [if_pos h]
  · intro a h hlt
    simp only [format_currency]
    rw [if_neg (not_le.mpr hlt), if_pos h]
  · intro a h hlt
    simp only [format_currency]
    rw [if_neg (not_le.mpr (lt_trans hlt (by norm_num))), if_neg (not_le.mpr hlt), if_pos h]
  · intro a h
    simp only [format_currency]
    rw [if_neg (not_le.mpr (lt_trans h (by norm_num))),
      if_neg (not_le.mpr (lt_trans h (by norm_num))), if_neg (not_le.mpr h)]

/-- Witness for C9's conditional branch clauses at the value 2500000000. -/
theorem format_currency_spec_witness :
    (1000000000 ≤ |(2500000000 : ℚ)|) ∧
    format_currency 2500000000 =
      (if (2500000000 : ℚ) < 0 then "-" else "") ++ "$" ++
        fmt_one_dec (|(2500000000 : ℚ)| / 1000000000) ++ "B" := by
  have h : (1000000000 : ℚ) ≤ |(2500000000 : ℚ)| := by
    rw [abs_of_nonneg (by norm_num : (0 : ℚ) ≤ 2500000000)]
    norm_num
  exact ⟨h, format_currency_spec.2.2.2.1 2500000000 h⟩

/-- No string compares strictly below the empty string. -/
theorem chars_lt_nil (l : List Char) : chars_lt l [] = false := by
  cases l <;> rfl

/-- Comparison against the empty string is always false. -/
theorem py_str_lt_empty (s : String) : py_str_lt s "" = false :=
  chars_lt_nil s.data

/-- The refresh decision fires exactly when there is no cache, or a supplied
signal is strictly greater than the cached `last_updated` (a truthiness check
on the empty string changes nothing, since nothing is below `""`). -/
theorem refresh_needed_iff (cached_last : Option String) (sig : Option String) :
    refresh_needed cached_last sig = true ↔
      (cached_last = none ∨
        ∃ d lu, sig = some d ∧ cached_last = some lu ∧ py_str_lt lu d = true) := by
  cases cached_last with
  | none => simp [refresh_needed]
  | some lu =>
    cases sig with
    | none => simp [refresh_needed]
    | some d =>
      simp only [refresh_needed, Bool.and_eq_true, decide_eq_true_eq,
        Option.some.injEq, reduceCtorEq, false_or]
      constructor
      · rintro ⟨-, h⟩
        exact ⟨d, lu, rfl, rfl, h⟩
      · rintro ⟨d', lu', hd, hlu, h⟩
        cases hd
        cases hlu
        refine ⟨?_, h⟩
        rintro rfl
        rw [py_str_lt_empty] at h
        cases h

/-- Projection of the income orchestrator's fetch flag. -/
theorem get_7year_pe_fetchCalled (env : PEEnv) (db : IncomeDb) (t : String)
    (mc : Option ℚ) (sig : Option String) :
    (get_7year_pe env db t mc sig).fetchCalled =
      refresh_needed ((get_cached_income db (py_upper t)).map (fun c => c.last_updated)) sig :=
  rfl

/-- When no refresh is needed the income orchestrator leaves the table
untouched and serves the cached series. -/
theorem get_7year_pe_no_refresh (env : PEEnv) (db : IncomeDb) (t : String)
    (mc : Option ℚ) (sig : Option String)
    (h : refresh_needed ((get_cached_income db (py_upper t)).map (fun c => c.last_updated))
      sig = false) :
    get_7year_pe env db t mc sig =
      ⟨(pe_tail (get_cached_income db (py_upper t)) mc env.fetch_mcap).1, db, false,
        (pe_tail (get_cached_income db (py_upper t)) mc env.fetch_mcap).2, 1⟩ := by
  simp [get_7year_pe, h]

/-- Projection of the balance orchestrator's fetch flag (market cap given). -/
theorem get_asset_valuation_fetchCalled (env : AVEnv) (db : BalanceDb) (t : String)
    (m : ℚ) (sig : Option String) :
    (get_asset_valuation env db t (some m) sig).fetchCalled =
      refresh_needed ((get_cached_balance_sheet db (py_upper t)).map (fun c => c.last_updated))
        sig :=
  rfl

/-- When no refresh is needed the balance orchestrator leaves the table
untouched and serves the cached series. -/
theorem get_asset_valuation_no_refresh (env : AVEnv) (db : BalanceDb) (t : String)
    (m : ℚ) (sig : Option String)
    (h : refresh_needed
      ((get_cached_balance_sheet db (py_upper t)).map (fun c => c.last_updated)) sig = false) :
    get_asset_valuation env db t (some m) sig =
      ⟨av_tail (get_cached_balance_sheet db (py_upper t)) m, db, false, 1⟩ := by
  simp [get_asset_valuation, h]

/-- C3: both orchestrators invoke their series provider iff the cache is
absent or a supplied freshness signal is lexicographically greater than the
cached `last_updated`; otherwise the table is unchanged and the result is
computed from the cached series without a provider call. -/
theorem refresh_decision_spec :
    (∀ (env : PEEnv) (db : IncomeDb) (t : String) (mc : Option ℚ) (sig : Option String),
      ((get_7year_pe env db t mc sig).fetchCalled = true ↔
        (get_cached_income db (py_upper t) = none ∨
          ∃ d c, sig = some d ∧ get_cached_income db (py_upper t) = some c ∧
            py_str_lt c.last_updated d = true)) ∧
      ((get_7year_pe env db t mc sig).fetchCalled = false →
        (get_7year_pe env db t mc sig).db = db ∧
        (get_7year_pe env db t mc sig).result =
          (pe_tail (get_cached_income db (py_upper t)) mc env.fetch_mcap).1)) ∧
    (∀ (env : AVEnv) (db : BalanceDb) (t : String) (m : ℚ) (sig : Option String),
      ((get_asset_valuation env db t (some m) sig).fetchCalled = true ↔
        (get_cached_balance_sheet db (py_upper t) = none ∨
          ∃ d c, sig = some d ∧ get_cached_balance_sheet db (py_upper t) = some c ∧
            py_str_lt c.last_updated d = true)) ∧
      ((get_asset_valuation env db t (some m) sig).fetchCalled = false →
        (get_asset_valuation env db t (some m) sig).db = db ∧
        (get_asset_valuation env db t (some m) sig).result =
          av_tail (get_cached_balance_sheet db (py_upper t)) m)) := by
  constructor
  · intro env db t mc sig
    constructor
    · rw [get_7year_pe_fetchCalled, refresh_needed_iff]
      cases hc : get_cached_income db (py_upper t) with
      | none => simp
      | some c => simp
    · intro h
      rw [get_7year_pe_fetchCalled] at h
      rw [get_7year_pe_no_refresh env db t mc sig h]
      exact ⟨rfl, rfl⟩
  · intro env db t m sig
    constructor
    · rw [get_asset_valuation_fetchCalled, refresh_needed_iff]
      cases hc : get_cached_balance_sheet db (py_upper t) with
      | none => simp
      | some c => simp
    · intro h
      rw [get_asset_valuation_fetchCalled] at h
      rw [get_asset_valuation_no_refresh env db t m sig h]
      exact ⟨rfl, rfl⟩

/-- Witness for C3 on a populated cache with no signal: no fetch happens and
the cached data is served. -/
theorem refresh_decision_spec_witness :
    ((get_7year_pe ⟨none, some 2000, "2025-06-01"⟩ scenario_db "A" none none).fetchCalled
        = false) ∧
    (get_7year_pe ⟨none, some 2000, "2025-06-01"⟩ scenario_db "A" none none).db
        = scenario_db ∧
    (get_7year_pe ⟨none, some 2000, "2025-06-01"⟩ scenario_db "A" none none).result =
      (pe_tail (get_cached_income scenario_db (py_upper "A")) none
        (some 2000 : Option ℚ)).1 := by
  have h := ((refresh_decision_spec.1 ⟨none, some 2000, "2025-06-01"⟩ scenario_db "A"
    none none).2 (by decide))
  exact ⟨by decide, h.1, h.2⟩

/-- With a failing income fetch the orchestrator reduces to serving whatever
was cached before the call. -/
theorem get_7year_pe_fetch_none (env : PEEnv) (db : IncomeDb) (t : String)
    (mc : Option ℚ) (sig : Option String) (h : env.fetch_income = none) :
    get_7year_pe env db t mc sig =
      ⟨(pe_tail (get_cached_income db (py_upper t)) mc env.fetch_mcap).1, db,
        refresh_needed ((get_cached_income db (py_upper t)).map (fun c => c.last_updated)) sig,
        (pe_tail (get_cached_income db (py_upper t)) mc env.fetch_mcap).2, 1⟩ := by
  simp [get_7year_pe, h, option_truthy]

/-- With a failing balance-sheet fetch the orchestrator reduces to serving
whatever was cached before the call. -/
theorem get_asset_valuation_fetch_none (env : AVEnv) (db : BalanceDb) (t : String)
    (m : ℚ) (sig : Option String) (h : env.fetch_balance = none) :
    get_asset_valuation env db t (some m) sig =
      ⟨av_tail (get_cached_balance_sheet db (py_upper t)) m, db,
        refresh_needed ((get_cached_balance_sheet db (py_upper t)).map
          (fun c => c.last_updated)) sig, 1⟩ := by
  simp [get_asset_valuation, h, option_truthy]

/-- C5: when the provider adapter returns absent, both orchestrators leave
the persisted table unchanged and compute the result from the pre-existing
cache (the same result as a call that needed no refresh); with no cache they
return absent. -/
theorem adapter_failure_spec :
    (∀ (env : PEEnv) (db : IncomeDb) (t : String) (mc : Option ℚ) (sig : Option String),
      env.fetch_income = none →
      (get_7year_pe env db t mc sig).db = db ∧
      (get_7year_pe env db t mc sig).result = (get_7year_pe env db t mc none).result ∧
      (get_cached_income db (py_upper t) = none →
        (get_7year_pe env db t mc sig).result = none)) ∧
    (∀ (env : AVEnv) (db : BalanceDb) (t : String) (m : ℚ) (sig : Option String),
      env.fetch_balance = none →
      (get_asset_valuation env db t (some m) sig).db = db ∧
      (get_asset_valuation env db t (some m) sig).result =
        (get_asset_valuation env db t (some m) none).result ∧
      (get_cached_balance_sheet db (py_upper t) = none →
        (get_asset_valuation env db t (some m) sig).result = none)) := by
  constructor
  · intro env db t mc sig h
    rw [get_7year_pe_fetch_none env db t mc sig h, get_7year_pe_fetch_none env db t mc none h]
    refine ⟨rfl, rfl, ?_⟩
    intro hc
    simp [hc, pe_tail]
  · intro env db t m sig h
    rw [get_asset_valuation_fetch_none env db t m sig h,
      get_asset_valuation_fetch_none env db t m none h]
    refine ⟨rfl, rfl, ?_⟩
    intro hc
    simp [hc, av_tail]

/-- Witness for C5: an empty table, a failing fetch and a signal produce an
absent result with the table left empty. -/
theorem adapter_failure_spec_witness :
    ((⟨none, none, "2025-06-01"⟩ : PEEnv).fetch_income = none) ∧
    (get_7year_pe ⟨none, none, "2025-06-01"⟩ [] "A" (some 2000) (some "2025-06-01")).db
        = ([] : IncomeDb) ∧
    (get_7year_pe ⟨none, none, "2025-06-01"⟩ [] "A" (some 2000) (some "2025-06-01")).result =
      (get_7year_pe ⟨none, none, "2025-06-01"⟩ [] "A" (some 2000) none).result ∧
    (get_cached_income ([] : IncomeDb) (py_upper "A") = none →
      (get_7year_pe ⟨none, none, "2025-06-01"⟩ [] "A" (some 2000)
        (some "2025-06-01")).result = none) :=
  ⟨rfl, adapter_failure_spec.1 ⟨none, none, "2025-06-01"⟩ [] "A" (some 2000)
    (some "2025-06-01") rfl⟩

/-- C10: `get_asset_valuation` with an absent market cap returns absent
immediately — no cache read, no refresh, no provider call, table unchanged —
while `get_7year_pe` with an absent market cap fetches the market value
itself once the cached series suffices. -/
theorem asset_valuation_requires_market_cap :
    (∀ (env : AVEnv) (db : BalanceDb) (t : String) (sig : Option String),
      get_asset_valuation env db t none sig = ⟨none, db, false, 0⟩) ∧
    (get_7year_pe ⟨none, none, "2025-06-01"⟩ scenario_db "A" none none).mcapCalled = true :=
  ⟨fun env db t sig => rfl, by decide⟩

/-- After a save, the rows of the saved ticker are exactly the saved records
stamped with the new date. -/
theorem filter_save_income (X : IncomeDb) (t : String) (recs : List IncomeRecord)
    (d : String) :
    (save_income X t recs d).filter (fun row => row.ticker = py_upper t) =
      recs.map (fun r => ⟨py_upper t, r.fiscal_year, r.net_income, d⟩) := by
  simp only [save_income, List.filter_append]
  have h1 : (X.filter (fun row => row.ticker ≠ py_upper t)).filter
      (fun row => row.ticker = py_upper t) = [] := by
    induction X with
    | nil => rfl
    | cons x xs ih => by_cases hx : x.ticker = py_upper t <;> simp [hx, ih]
  have h2 : (recs.map (fun r =>
        (⟨py_upper t, r.fiscal_year, r.net_income, d⟩ : IncomeRow))).filter
      (fun row => row.ticker = py_upper t) = recs.map (fun r =>
        (⟨py_upper t, r.fiscal_year, r.net_income, d⟩ : IncomeRow)) := by
    induction recs with
    | nil => rfl
    | cons r rs ih => simp [ih]
  rw [h1, h2, List.nil_append]

/-- C4: two successive saves for the same ticker leave exactly the second
call's records, ordered by fiscal year descending (with the distinct years
the `UNIQUE(ticker, fiscal_year)` constraint guarantees), every row stamped
with the second date, and nothing of the first call surviving. -/
theorem save_income_replaces (db : IncomeDb) (t : String)
    (r1 r2 : List IncomeRecord) (d1 d2 : String)
    (hne : r2 ≠ [])
    (hnodup : (r2.map (fun r => r.fiscal_year)).Nodup) :
    ∃ c, get_cached_income (save_income (save_income db t r1 d1) t r2 d2) t = some c ∧
      c.last_updated = d2 ∧
      c.annual_income.Perm
        (r2.map (fun r => ⟨py_upper t, r.fiscal_year, r.net_income⟩)) ∧
      List.Sorted (fun a b : IncomeRecord => b.fiscal_year ≤ a.fiscal_year)
        c.annual_income ∧
      (c.annual_income.map (fun r => r.fiscal_year)).Nodup ∧
      (∀ row ∈ save_income (save_income db t r1 d1) t r2 d2,
        row.ticker = py_upper t → row.last_updated = d2) := by
  have hfilter := filter_save_income (save_income db t r1 d1) t r2 d2
  set toRow : IncomeRecord → IncomeRow :=
    fun r => ⟨py_upper t, r.fiscal_year, r.net_income, d2⟩ with htoRow
  set rows := List.insertionSort incomeRowGE (r2.map toRow) with hrows_def
  have hperm : rows.Perm (r2.map toRow) := List.perm_insertionSort _ _
  have hsorted_rows : List.Sorted incomeRowGE rows :=
    List.sorted_insertionSort incomeRowGE (r2.map toRow)
  have hlen : rows.length = r2.length := by
    rw [hperm.length_eq, List.length_map]
  cases hrows : rows with
  | nil =>
    exfalso
    rw [hrows, List.length_nil] at hlen
    exact hne (List.length_eq_zero.mp hlen.symm)
  | cons r0 rest =>
    have hmem0 : r0 ∈ rows := by
      rw [hrows]
      exact List.mem_cons_self r0 rest
    have hlast : r0.last_updated = d2 := by
      have : r0 ∈ r2.map toRow := hperm.mem_iff.mp hmem0
      obtain ⟨r, -, hr⟩ := List.mem_map.mp this
      rw [← hr]
    refine ⟨⟨py_upper t, r0.last_updated,
      (r0 :: rest).map (fun row => ⟨py_upper t, row.fiscal_year, row.net_income⟩)⟩, ?_, hlast,
      ?_, ?_, ?_, ?_⟩
    · simp only [get_cached_income, hfilter]
      rw [← hrows_def, hrows]
    · rw [← hrows]
      have h1 : (rows.map (fun row =>
            (⟨py_upper t, row.fiscal_year, row.net_income⟩ : IncomeRecord))).Perm
          ((r2.map toRow).map (fun row =>
            (⟨py_upper t, row.fiscal_year, row.net_income⟩ : IncomeRecord))) :=
        hperm.map _
      refine h1.trans ?_
      rw [List.map_map]
      rfl
    · rw [← hrows]
      exact hsorted_rows.map _ (fun a b h => h)
    · rw [← hrows, List.map_map]
      have h2 : (rows.map (fun row => row.fiscal_year)).Perm
          ((r2.map toRow).map (fun row => row.fiscal_year)) := hperm.map _
      have h3 : (r2.map toRow).map (fun row => row.fiscal_year) =
          r2.map (fun r => r.fiscal_year) := by
        rw [List.map_map]
        rfl
      rw [h3] at h2
      exact (h2.nodup_iff).mpr hnodup
    · intro row hrow hticker
      simp only [save_income, List.mem_append] at hrow
      rcases hrow with hl | hr
      · have := List.of_mem_filter hl
        simp only [decide_eq_true_eq] at this
        exact absurd hticker this
      · obtain ⟨r, -, hr⟩ := List.mem_map.mp hr
        rw [← hr]

/-- Witness for C4 on a two-record second save overwriting a one-record
first save. -/
theorem save_income_replaces_witness :
    (([⟨"A", 2021, 2⟩, ⟨"A", 2020, 3⟩] : List IncomeRecord) ≠ []) ∧
    ((([⟨"A", 2021, 2⟩, ⟨"A", 2020, 3⟩] : List IncomeRecord).map
      (fun r => r.fiscal_year)).Nodup) ∧
    ∃ c, get_cached_income (save_income (save_income [] "A" [⟨"A", 2020, 1⟩] "2024-01-01")
        "A" [⟨"A", 2021, 2⟩, ⟨"A", 2020, 3⟩] "2025-01-01") "A" = some c ∧
      c.last_updated = "2025-01-01" ∧
      c.annual_income.Perm
        (([⟨"A", 2021, 2⟩, ⟨"A", 2020, 3⟩] : List IncomeRecord).map
          (fun r => ⟨py_upper "A", r.fiscal_year, r.net_income⟩)) ∧
      List.Sorted (fun a b : IncomeRecord => b.fiscal_year ≤ a.fiscal_year)
        c.annual_income ∧
      (c.annual_income.map (fun r => r.fiscal_year)).Nodup ∧
      (∀ row ∈ save_income (save_income [] "A" [⟨"A", 2020, 1⟩] "2024-01-01")
          "A" [⟨"A", 2021, 2⟩, ⟨"A", 2020, 3⟩] "2025-01-01",
        row.ticker = py_upper "A" → row.last_updated = "2025-01-01") :=
  ⟨by decide, by decide,
    save_income_replaces [] "A" [⟨"A", 2020, 1⟩] [⟨"A", 2021, 2⟩, ⟨"A", 2020, 3⟩]
      "2024-01-01" "2025-01-01" (by decide) (by decide)⟩

/-- A conversion failure does not depend on the amount: if `convert_to_usd`
fails for one amount it fails for every amount. -/
theorem convert_to_usd_fail_all (ratesResult : Option (List (String × ℚ)))
    (c : String) (a b : ℚ) (h : convert_to_usd ratesResult a c = none) :
    convert_to_usd ratesResult b c = none := by
  by_cases hc : c = "USD"
  · subst hc
    simp [convert_to_usd] at h
  · cases ratesResult with
    | none => simp [convert_to_usd, hc]
    | some rates =>
      cases hget : rates_get rates c with
      | none => simp [convert_to_usd, hc, hget]
      | some r =>
        by_cases hr : r ≤ 0
        · simp [convert_to_usd, hc, hget, hr]
        · simp [convert_to_usd, hc, hget, hr] at h

/-- Under a failing conversion for a non-USD currency, the income entry loop
either aborts or skips every entry. -/
theorem income_entry_loop_conv_fail (ratesResult : Option (List (String × ℚ)))
    (py : String → Option Int) (pn : String → Option ℚ) (tU cur : String)
    (entries : List IncomeEntry) (hcur : cur ≠ "USD")
    (hconv : ∀ a, convert_to_usd ratesResult a cur = none) :
    income_entry_loop ratesResult py pn tU cur entries = none ∨
    income_entry_loop ratesResult py pn tU cur entries = some [] := by
  induction entries with
  | nil => exact Or.inr rfl
  | cons e rest ih =>
    rw [income_entry_loop]
    split_ifs with hskip
    · exact ih
    · cases hy : py e.fiscalDateEnding with
      | none => simpa [hy] using ih
      | some fy =>
        cases hn : pn e.netIncome with
        | none => simpa [hy, hn] using ih
        | some ni =>
          left
          simp [hcur, hconv ni]

/-- Under a failing conversion for a non-USD currency, the balance-sheet
entry loop either aborts or skips every entry. -/
theorem balance_entry_loop_conv_fail (ratesResult : Option (List (String × ℚ)))
    (py : String → Option Int) (pn : String → Option ℚ) (tU cur : String)
    (entries : List BalanceEntry) (hcur : cur ≠ "USD")
    (hconv : ∀ a, convert_to_usd ratesResult a cur = none) :
    balance_entry_loop ratesResult py pn tU cur entries = none ∨
    balance_entry_loop ratesResult py pn tU cur entries = some [] := by
  induction entries with
  | nil => exact Or.inr rfl
  | cons e rest ih =>
    rw [balance_entry_loop]
    split_ifs with hskip
    · exact ih
    · cases hy : py e.fiscalDateEnding with
      | none => simpa [hy] using ih
      | some fy =>
        left
        simp [hcur, hconv]

/-- C7: when the first annual entry reports a non-USD currency and the
currency conversion fails (a failure never depends on the amount being
converted), the whole fetch returns absent for both adapters — no series
mixing converted and unconverted values is ever returned. -/
theorem fetch_all_or_nothing :
    (∀ (api_key : Bool) (data : AVData IncomeEntry) (e0 : IncomeEntry)
        (es : List IncomeEntry) (ratesResult : Option (List (String × ℚ)))
        (py : String → Option Int) (pn : String → Option ℚ) (t : String) (v : ℚ),
      data.annualReports = e0 :: es →
      e0.reportedCurrency.getD "USD" ≠ "USD" →
      convert_to_usd ratesResult v (e0.reportedCurrency.getD "USD") = none →
      fetch_annual_net_income api_key (some data) ratesResult py pn t = none) ∧
    (∀ (api_key : Bool) (data : AVData BalanceEntry) (e0 : BalanceEntry)
        (es : List BalanceEntry) (ratesResult : Option (List (String × ℚ)))
        (py : String → Option Int) (pn : String → Option ℚ) (t : String) (v : ℚ),
      data.annualReports = e0 :: es →
      e0.reportedCurrency.getD "USD" ≠ "USD" →
      convert_to_usd ratesResult v (e0.reportedCurrency.getD "USD") = none →
      fetch_balance_sheet api_key (some data) ratesResult py pn t = none) := by
  constructor
  · intro api_key data e0 es ratesResult py pn t v hrep hcur hconv
    have hconv' : ∀ a, convert_to_usd ratesResult a (e0.reportedCurrency.getD "USD") = none :=
      fun a => convert_to_usd_fail_all ratesResult _ v a hconv
    unfold fetch_annual_net_income
    cases api_key with
    | false => rfl
    | true =>
      simp only [Bool.not_true, if_false, Bool.false_eq_true]
      rcases hb1 : data.hasErrorMessage with - | -
      case true => simp
      rcases hb2 : data.hasNote with - | -
      case true => simp [hb1]
      simp only [hb1, hb2, if_false, Bool.false_eq_true, hrep]
      rcases income_entry_loop_conv_fail ratesResult py pn (py_upper t)
        (e0.reportedCurrency.getD "USD") (e0 :: es) hcur hconv' with hl | hl <;>
        simp [hl]
  · intro api_key data e0 es ratesResult py pn t v hrep hcur hconv
    have hconv' : ∀ a, convert_to_usd ratesResult a (e0.reportedCurrency.getD "USD") = none :=
      fun a => convert_to_usd_fail_all ratesResult _ v a hconv
    unfold fetch_balance_sheet
    cases api_key with
    | false => rfl
    | true =>
      simp only [Bool.not_true, if_false, Bool.false_eq_true]
      by_cases hb : (data.hasErrorMessage ∨ data.hasNote)
      · simp [hb]
      · simp only [hb, if_false, hrep]
        rcases balance_entry_loop_conv_fail ratesResult py pn (py_upper t)
          (e0.reportedCurrency.getD "USD") (e0 :: es) hcur hconv' with hl | hl <;>
          simp [hl]

/-- Witness for C7: a one-entry EUR report with no rate table fetches to
absent. -/
theorem fetch_all_or_nothing_witness :
    ((⟨false, false, [⟨"2024-12-31", "5", some "EUR"⟩]⟩ : AVData IncomeEntry).annualReports
        = ⟨"2024-12-31", "5", some "EUR"⟩ :: []) ∧
    ((some "EUR" : Option String).getD "USD" ≠ "USD") ∧
    convert_to_usd none 5 ((some "EUR" : Option String).getD "USD") = none ∧
    fetch_annual_net_income true
      (some ⟨false, false, [⟨"2024-12-31", "5", some "EUR"⟩]⟩) none
      (fun _ => some 2024) (fun _ => some 5) "A" = none :=
  ⟨rfl, by decide, rfl,
    fetch_all_or_nothing.1 true ⟨false, false, [⟨"2024-12-31", "5", some "EUR"⟩]⟩
      ⟨"2024-12-31", "5", some "EUR"⟩ [] none (fun _ => some 2024) (fun _ => some 5)
      "A" 5 rfl (by decide) rfl⟩

/-- A failing response makes `fetch_rates` return absent and keep the cache
field untouched. -/
theorem fetch_rates_failing (cache : Option ExchangeRateCache) (now : ℚ)
    (resp : Option ApiResp) (h : failing_resp resp) :
    fetch_rates cache now resp = ⟨none, cache, true⟩ := by
  rcases h with rfl | ⟨data, rfl, hfail⟩
  · rfl
  · rcases hfail with hres | hrates
    · simp [fetch_rates, hres]
    · by_cases hres : data.result ≠ "success"
      · simp [fetch_rates, hres]
      · simp [fetch_rates, hres, hrates]

/-- An expired-or-absent cache together with only failing fetches produces
absent on every call and never changes the cache. -/
theorem run_rate_calls_all_failing (cache : Option ExchangeRateCache)
    (calls : List (ℚ × Option ApiResp))
    (hfail : ∀ p ∈ calls, failing_resp p.2)
    (hexp : ∀ c, cache = some c → ∀ p ∈ calls,
      c.timestamp + cache_expiration_seconds ≤ p.1) :
    (run_rate_calls cache calls).1 = calls.map (fun _ => none) ∧
    (run_rate_calls cache calls).2 = cache := by
  induction calls with
  | nil => exact ⟨rfl, rfl⟩
  | cons p rest ih =>
    obtain ⟨now, resp⟩ := p
    have hstep : get_exchange_rates cache now resp = ⟨none, cache, true⟩ := by
      cases cache with
      | none => exact fetch_rates_failing none now resp (hfail _ (List.mem_cons_self _ _))
      | some c =>
        have hc := hexp c rfl (now, resp) (List.mem_cons_self _ _)
        simp only [get_exchange_rates]
        rw [if_neg (not_lt.mpr (by linarith))]
        exact fetch_rates_failing (some c) now resp (hfail _ (List.mem_cons_self _ _))
    have ihh := ih (fun q hq => hfail q (List.mem_cons_of_mem _ hq))
      (fun c hc q hq => hexp c hc q (List.mem_cons_of_mem _ hq))
    simp only [run_rate_calls, hstep]
    exact ⟨by simp [ihh.1], by simp [ihh.2]⟩

/-- C8: a cache younger than 24 hours is served without a fetch; a missing or
expired cache triggers a fetch; a failed fetch never alters the stored cache;
starting from a missing or expired cache, as long as every fetch fails each
call returns absent and the cache stays as it was; and without a rate table
every non-USD conversion is absent. -/
theorem exchange_rate_cache_spec :
    (∀ (c : ExchangeRateCache) (now : ℚ) (resp : Option ApiResp),
      now - c.timestamp < cache_expiration_seconds →
      get_exchange_rates (some c) now resp = ⟨some c.rates, some c, false⟩) ∧
    (∀ (now : ℚ) (resp : Option ApiResp),
      (get_exchange_rates none now resp).fetched = true) ∧
    (∀ (c : ExchangeRateCache) (now : ℚ) (resp : Option ApiResp),
      cache_expiration_seconds ≤ now - c.timestamp →
      (get_exchange_rates (some c) now resp).fetched = true) ∧
    (∀ (cache : Option ExchangeRateCache) (now : ℚ) (resp : Option ApiResp),
      failing_resp resp → (get_exchange_rates cache now resp).cache = cache) ∧
    (∀ (cache : Option ExchangeRateCache) (calls : List (ℚ × Option ApiResp)),
      (∀ p ∈ calls, failing_resp p.2) →
      (∀ c, cache = some c → ∀ p ∈ calls,
        c.timestamp + cache_expiration_seconds ≤ p.1) →
      (run_rate_calls cache calls).1 = calls.map (fun _ => none) ∧
      (run_rate_calls cache calls).2 = cache) ∧
    (∀ (a : ℚ) (c : String), c ≠ "USD" → convert_to_usd none a c = none) := by
  refine ⟨?_, ?_, ?_, ?_, run_rate_calls_all_failing, ?_⟩
  · intro c now resp h
    simp [get_exchange_rates, h]
  · intro now resp
    show (fetch_rates none now resp).fetched = true
    cases resp with
    | none => rfl
    | some data =>
      by_cases h1 : data.result ≠ "success"
      · simp [fetch_rates, h1]
      · by_cases h2 : data.rates = [] <;> simp [fetch_rates, h1, h2]
  · intro c now resp h
    simp only [get_exchange_rates]
    rw [if_neg (not_lt.mpr h)]
    cases resp with
    | none => rfl
    | some data =>
      by_cases h1 : data.result ≠ "success"
      · simp [fetch_rates, h1]
      · by_cases h2 : data.rates = [] <;> simp [fetch_rates, h1, h2]
  · intro cache now resp h
    cases cache with
    | none =>
      show (fetch_rates none now resp).cache = none
      rw [fetch_rates_failing none now resp h]
    | some c =>
      simp only [get_exchange_rates]
      by_cases hfresh : now - c.timestamp < cache_expiration_seconds
      · rw [if_pos hfresh]
      · rw [if_neg hfresh, fetch_rates_failing (some c) now resp h]
  · intro a c hc
    simp [convert_to_usd, hc]

/-- Witness for C8: a fresh cache is served unfetched, and a missing cache
with one failing call yields one absent result and no cache. -/
theorem exchange_rate_cache_spec_witness :
    ((100 : ℚ) - 0 < cache_expiration_seconds) ∧
    (get_exchange_rates (some ⟨[("EUR", 2)], 0⟩) 100 none =
      ⟨some [("EUR", 2)], some ⟨[("EUR", 2)], 0⟩, false⟩) ∧
    (∀ p ∈ [((100000 : ℚ), (none : Option ApiResp))], failing_resp p.2) ∧
    ((run_rate_calls none [((100000 : ℚ), (none : Option ApiResp))]).1 =
        [((100000 : ℚ), (none : Option ApiResp))].map (fun _ => none) ∧
      (run_rate_calls none [((100000 : ℚ), (none : Option ApiResp))]).2 = none) := by
  have h1 : (100 : ℚ) - 0 < cache_expiration_seconds := by
    rw [cache_expiration_seconds]
    norm_num
  have h2 : ∀ p ∈ [((100000 : ℚ), (none : Option ApiResp))], failing_resp p.2 := by
    intro p hp
    simp only [List.mem_singleton] at hp
    rw [hp]
    exact Or.inl rfl
  refine ⟨h1, exchange_rate_cache_spec.1 ⟨[("EUR", 2)], 0⟩ 100 none h1, h2, ?_⟩
  exact exchange_rate_cache_spec.2.2.2.2.1 none [((100000 : ℚ), (none : Option ApiResp))]
    h2 (fun c hc => by cases hc)

end StockIndexInfo
